import Mathlib

set_option maxRecDepth 20000

/-!
# Verification of the rustyload load-generation core

A shallow embedding of the core of the rustyload repository
(src/protocols/mod.rs, src/protocols/flashkv.rs, src/protocols/http.rs)
together with proofs of the specification's claims about it.

Modelling conventions:
* Rust `String` values are modelled as `List Char`; the repository only ever
  manipulates ASCII protocol text, so Rust's Unicode `to_uppercase` and
  `trim_end` are modelled by their ASCII restrictions.
* `u64`/`u128`/`usize` quantities (durations, counters, lengths) are modelled
  as `ℕ`; every quantity involved is far below the wrap-around point of its
  machine type, so no `% 2^w` reduction is needed.
* `f64` values are modelled bit-exactly by a binary64 softfloat: a value is
  a dyadic `m · 2^e` (`F64` below) and every arithmetic operation rounds its
  exact result to 53 significant bits, round-to-nearest, ties-to-even, with
  the ulp clamped at `2^(-1074)` (subnormals). Overflow to infinity and NaN
  lie outside the range reachable from `u128` durations and the literal
  percentile arguments and are not modelled. The mean and throughput fields
  of the statistics report are additionally characterised by exact `ℚ`
  formulas, which at the claims' concrete instances coincide with the `f64`
  values (the divisions involved are exact).
* A Rust panic is modelled by `Option.none`.
-/

namespace RustyLoad

/-- ASCII model of Rust's `char::to_uppercase` (one character), spelled as an
explicit table over the 26 lowercase letters; every other character is kept
unchanged, exactly as the Rust function behaves on ASCII input. -/
def upChar (c : Char) : Char :=
  if c = 'a' then 'A' else if c = 'b' then 'B' else if c = 'c' then 'C'
  else if c = 'd' then 'D' else if c = 'e' then 'E' else if c = 'f' then 'F'
  else if c = 'g' then 'G' else if c = 'h' then 'H' else if c = 'i' then 'I'
  else if c = 'j' then 'J' else if c = 'k' then 'K' else if c = 'l' then 'L'
  else if c = 'm' then 'M' else if c = 'n' then 'N' else if c = 'o' then 'O'
  else if c = 'p' then 'P' else if c = 'q' then 'Q' else if c = 'r' then 'R'
  else if c = 's' then 'S' else if c = 't' then 'T' else if c = 'u' then 'U'
  else if c = 'v' then 'V' else if c = 'w' then 'W' else if c = 'x' then 'X'
  else if c = 'y' then 'Y' else if c = 'z' then 'Z' else c

/-- Model of Rust's `str::to_uppercase` on ASCII text. -/
def upList (l : List Char) : List Char := l.map upChar

/-- Model of Rust's `str::contains` (substring search): `hasSubstr n h` is
true iff `n` occurs contiguously inside `h`. -/
def hasSubstr : List Char → List Char → Bool
  | n, [] => n.isEmpty
  | n, c :: rest => n.isPrefixOf (c :: rest) || hasSubstr n rest

/-- Model of Rust's `str::trim_end`: drop trailing whitespace characters
(the repository only feeds it ASCII text, where Rust's `char::is_whitespace`
coincides with `Char.isWhitespace`). -/
def trimEnd (l : List Char) : List Char :=
  (l.reverse.dropWhile Char.isWhitespace).reverse

/-- `FlashKVCommand` from src/protocols/flashkv.rs: the commands of the
KV-TCP line protocol. -/
inductive FlashKVCommand where
  | Ping
  | Get (key : List Char)
  | Set (key value : List Char)
  | Del (key : List Char)
  | Incr (key : List Char)
  | Decr (key : List Char)
  | LPush (key value : List Char)
  | LPop (key : List Char)
  | Exists (key : List Char)
  | Expire (key : List Char) (seconds : ℕ)
  | Ttl (key : List Char)
  | Keys (pattern : List Char)
  | FlushDb
  | Raw (command : List Char)
deriving DecidableEq

/-- `FlashKVCommand::to_wire_format` from src/protocols/flashkv.rs: the
CRLF-terminated wire serialization of a command. -/
def to_wire_format : FlashKVCommand → List Char
  | .Ping => "PING\r\n".data
  | .Get key => "GET ".data ++ key ++ "\r\n".data
  | .Set key value => "SET ".data ++ key ++ " ".data ++ value ++ "\r\n".data
  | .Del key => "DEL ".data ++ key ++ "\r\n".data
  | .Incr key => "INCR ".data ++ key ++ "\r\n".data
  | .Decr key => "DECR ".data ++ key ++ "\r\n".data
  | .LPush key value => "LPUSH ".data ++ key ++ " ".data ++ value ++ "\r\n".data
  | .LPop key => "LPOP ".data ++ key ++ "\r\n".data
  | .Exists key => "EXISTS ".data ++ key ++ "\r\n".data
  | .Expire key seconds =>
      "EXPIRE ".data ++ key ++ " ".data ++ (toString seconds).data ++ "\r\n".data
  | .Ttl key => "TTL ".data ++ key ++ "\r\n".data
  | .Keys pattern => "KEYS ".data ++ pattern ++ "\r\n".data
  | .FlushDb => "FLUSHDB\r\n".data
  | .Raw command =>
      if "\r\n".data.isSuffixOf command then command
      else if "\n".data.isSuffixOf command then trimEnd command ++ "\r\n".data
      else command ++ "\r\n".data

/-- `FlashKVCommand::with_random_key` from src/protocols/flashkv.rs.
`draw` models the integer produced by `rand::rng().random_range(0..range)`:
when `range > 0` the library returns some `draw < range`, and when
`range = 0` it panics on the empty interval — modelled here by `none`
(the guard `draw < range` is unsatisfiable for `range = 0`). The draw
happens before the command is inspected, exactly as in the source. -/
def with_random_key (cmd : FlashKVCommand) (pfx : List Char) (range : ℕ)
    (draw : ℕ) : Option FlashKVCommand :=
  if draw < range then
    let random_key := pfx ++ ":".data ++ (toString draw).data
    some (match cmd with
      | .Get _ => .Get random_key
      | .Set _ value => .Set random_key value
      | .Del _ => .Del random_key
      | .Incr _ => .Incr random_key
      | .Decr _ => .Decr random_key
      | .LPush _ value => .LPush random_key value
      | .LPop _ => .LPop random_key
      | .Exists _ => .Exists random_key
      | .Expire _ seconds => .Expire random_key seconds
      | .Ttl _ => .Ttl random_key
      | c => c)
  else none

namespace status

/-- FlashKV synthetic status codes from src/protocols/flashkv.rs. -/
def OK : ℕ := 200

def NOT_FOUND : ℕ := 404

def ERROR : ℕ := 500

def CONNECTION_ERROR : ℕ := 503

def TIMEOUT : ℕ := 504

end status

/-- `RequestResult` from src/protocols/mod.rs: the uniform per-request
outcome. -/
structure RequestResult where
  duration : ℕ
  status : ℕ
  success : Bool
  error : Option (List Char)
deriving DecidableEq

/-- The error test of `execute_command` in src/protocols/flashkv.rs, applied
to the trimmed response line. -/
def is_error_response (response : List Char) : Bool :=
  "-ERR".data.isPrefixOf response || "ERROR".data.isPrefixOf response ||
  "-".data.isPrefixOf response || "ERR".data.isPrefixOf (upList response)

/-- The `Ok(Ok((response, is_error)))` branch of `fire_single_request` in
src/protocols/flashkv.rs: build the `RequestResult` for a response line that
was successfully read from the server. -/
def fire_result (duration : ℕ) (response : List Char) : RequestResult :=
  let is_error := is_error_response response
  let sc : ℕ × Bool :=
    if is_error then (status.ERROR, false)
    else if hasSubstr "NIL".data (upList response) ||
        hasSubstr "NOT FOUND".data (upList response) ||
        hasSubstr "(nil)".data (upList response) then (status.NOT_FOUND, true)
    else (status.OK, true)
  { duration := duration, status := sc.1, success := sc.2,
    error := if is_error then some response else none }

/-- Bit length of a natural number, with explicit fuel so that the kernel
can evaluate it; 4096 bits of fuel covers every quantity arising from
`u128` data in this development. -/
def bl : ℕ → ℕ → ℕ
  | 0, _ => 0
  | fuel + 1, n => if n = 0 then 0 else bl fuel (n / 2) + 1

/-- An IEEE-754 binary64 value `m · 2^e` (finite; sign carried by `m`). The
representation is not required to be normalised — operations round their
exact result to 53 significant bits regardless. -/
structure F64 where
  m : ℤ
  e : ℤ
deriving DecidableEq

/-- Round the non-negative dyadic `n · 2^e` to binary64: 53 significant
bits, round-to-nearest, ties-to-even, ulp clamped at `2^(-1074)`. -/
def roundNat (n : ℕ) (e : ℤ) : F64 :=
  let L : ℤ := bl 4096 n
  let u : ℤ := max (e + L - 53) (-1074)
  if u ≤ e then ⟨n, e⟩
  else
    let k := (u - e).toNat
    let q := n / 2 ^ k
    let r := n % 2 ^ k
    let half := 2 ^ (k - 1)
    let q' := if half < r then q + 1
      else if r < half then q
      else if q % 2 = 0 then q else q + 1
    ⟨q', u⟩

/-- Round the dyadic `m · 2^e` to binary64 (round-to-nearest, ties-to-even). -/
def roundDyadic (m e : ℤ) : F64 :=
  if m < 0 then
    let f := roundNat m.natAbs e
    ⟨-f.m, f.e⟩
  else roundNat m.natAbs e

/-- Conversion of an integer to binary64 (Rust `as f64`; exact below 2^53,
correctly rounded above). -/
def intToF64 (n : ℤ) : F64 := roundDyadic n 0

/-- Binary64 addition: the exact sum, correctly rounded. -/
def addF64 (a b : F64) : F64 :=
  if a.e ≤ b.e then roundDyadic (b.m * 2 ^ (b.e - a.e).toNat + a.m) a.e
  else roundDyadic (a.m * 2 ^ (a.e - b.e).toNat + b.m) b.e

/-- Binary64 subtraction. -/
def subF64 (a b : F64) : F64 := addF64 a ⟨-b.m, b.e⟩

/-- Binary64 multiplication: the exact product, correctly rounded. -/
def mulF64 (a b : F64) : F64 := roundDyadic (a.m * b.m) (a.e + b.e)

/-- Binary64 division, correctly rounded (round-to-nearest, ties-to-even):
the quotient is computed to 54-55 bits with a sticky remainder and rounded
to 53 bits. Division by zero is unreachable here (the divisor is the
literal 100.0). -/
def divF64 (a b : F64) : F64 :=
  if a.m = 0 then ⟨0, 0⟩
  else if b.m = 0 then ⟨0, 0⟩
  else
    let na := a.m.natAbs
    let nb := b.m.natAbs
    let sgn : ℤ := if a.m * b.m < 0 then -1 else 1
    let t : ℤ := (bl 4096 nb : ℤ) - (bl 4096 na : ℤ) + 54
    let num := if 0 ≤ t then na * 2 ^ t.toNat else na
    let den := if 0 ≤ t then nb else nb * 2 ^ (-t).toNat
    let q := num / den
    let r := num % den
    let k := bl 4096 q - 53
    let low := q % 2 ^ k
    let high := q / 2 ^ k
    let half := 2 ^ (k - 1)
    let q' := if half < low then high + 1
      else if low < half then high
      else if 0 < r then high + 1
      else if high % 2 = 0 then high else high + 1
    ⟨sgn * q', a.e - b.e - t + k⟩

/-- `f64::floor`, landing directly in ℤ (the program immediately casts the
result to an integer type). -/
def floorF64 (a : F64) : ℤ :=
  if 0 ≤ a.e then a.m * 2 ^ a.e.toNat
  else a.m.fdiv ((2 : ℤ) ^ (-a.e).toNat)

/-- `f64::ceil`, landing directly in ℤ. -/
def ceilF64 (a : F64) : ℤ := -(floorF64 ⟨-a.m, a.e⟩)

/-- The `as u128` cast of a finite binary64 value: truncation toward zero,
saturating at 0 from below (saturation at `u128::MAX` is unreachable from
`u128` latency data). -/
def truncF64toNat (a : F64) : ℕ := (floorF64 a).toNat

/-- `percentile` from src/protocols/mod.rs, with every `f64` operation
modelled bit-exactly by the binary64 softfloat above. `rank.floor() as
usize` is `Int.toNat ∘ floorF64` (Rust's float-to-unsigned cast saturates
at 0 from below), and the final `as u128` cast truncates toward zero. The
callers pass the literals 50.0, 95.0, 99.0, i.e. `intToF64 50` etc. -/
def percentile (sorted_data : List ℕ) (pct : F64) : ℕ :=
  if sorted_data.isEmpty then 0
  else
    let len := sorted_data.length
    let rank : F64 := mulF64 (divF64 pct (intToF64 100)) (intToF64 (len - 1))
    let lower : ℕ := (floorF64 rank).toNat
    let upper : ℕ := (ceilF64 rank).toNat
    if lower = upper ∨ len ≤ upper then
      sorted_data.getD (min lower (len - 1)) 0
    else
      let weight : F64 := subF64 rank (intToF64 lower)
      let lower_val : F64 := intToF64 (sorted_data.getD lower 0)
      let upper_val : F64 := intToF64 (sorted_data.getD upper 0)
      truncF64toNat (addF64 lower_val (mulF64 weight (subF64 upper_val lower_val)))

/-- `LoadTestStats` from src/protocols/mod.rs, with the two `f64` fields
modelled as `ℚ`. -/
structure LoadTestStats where
  total_requests : ℕ
  successful_requests : ℕ
  failed_requests : ℕ
  total_duration : ℕ
  min_latency : ℕ
  max_latency : ℕ
  avg_latency : ℚ
  p50 : ℕ
  p95 : ℕ
  p99 : ℕ
  requests_per_second : ℚ

/-- `calculate_stats` from src/protocols/mod.rs. Rust's
`sort_unstable` on integers produces the unique ascending reordering, here
`List.insertionSort (· ≤ ·)`. -/
def calculate_stats (results : List RequestResult) (total_duration : ℕ) :
    LoadTestStats :=
  let total_requests := results.length
  let successful_requests := (results.filter (fun r => r.success)).length
  let failed_requests := total_requests - successful_requests
  let latencies :=
    List.insertionSort (· ≤ ·)
      ((results.filter (fun r => r.success)).map (fun r => r.duration))
  let six : ℕ × ℕ × ℚ × ℕ × ℕ × ℕ :=
    if latencies.isEmpty then (0, 0, 0, 0, 0, 0)
    else
      (latencies.headD 0, latencies.getLastD 0,
        (latencies.sum : ℚ) / (latencies.length : ℚ),
        percentile latencies (intToF64 50), percentile latencies (intToF64 95),
        percentile latencies (intToF64 99))
  let requests_per_second : ℚ :=
    if 0 < total_duration then
      ((total_requests : ℚ) / (total_duration : ℚ)) * 1000
    else 0
  { total_requests := total_requests,
    successful_requests := successful_requests,
    failed_requests := failed_requests,
    total_duration := total_duration,
    min_latency := six.1,
    max_latency := six.2.1,
    avg_latency := six.2.2.1,
    p50 := six.2.2.2.1,
    p95 := six.2.2.2.2.1,
    p99 := six.2.2.2.2.2,
    requests_per_second := requests_per_second }

/-- Command selection of `fire_single_request` in src/protocols/flashkv.rs:
`&config.commands[command_index % config.commands.len()]`. An empty command
list makes `% 0` panic in Rust, modelled by `none`. -/
def selectCommand (commands : List FlashKVCommand) (i : ℕ) :
    Option FlashKVCommand :=
  if h : 0 < commands.length then
    some (commands.get ⟨i % commands.length, Nat.mod_lt i h⟩)
  else none

/-- The command sequence issued by `run_load_test` in
src/protocols/flashkv.rs: task `i` (for `i` in `0..num_requests`) calls
`fire_single_request` with `command_index = i`. -/
def dispatchedCommands (commands : List FlashKVCommand) (num_requests : ℕ) :
    List (Option FlashKVCommand) :=
  (List.range num_requests).map (selectCommand commands)

/-- Abstract state of the dispatch engine of `run_load_test`
(src/protocols/http.rs and src/protocols/flashkv.rs): how many spawned tasks
are still waiting for a semaphore permit, how many currently hold one (and
are inside their single driver invocation), and how many have finished and
reported their `RequestResult`. -/
structure DispatchState where
  pending : ℕ
  running : ℕ
  finished : ℕ
deriving DecidableEq

/-- One scheduler step of the semaphore-gated dispatch loop with concurrency
limit `c`: a waiting task may acquire a permit only while fewer than `c`
tasks hold one (`Semaphore::new(concurrency)` with `acquire().await`), and a
running task may complete its driver invocation, dropping its permit and
contributing its result. -/
inductive DispatchStep (c : ℕ) : DispatchState → DispatchState → Prop
  | acquire (s : DispatchState) (hp : 0 < s.pending) (hr : s.running < c) :
      DispatchStep c s ⟨s.pending - 1, s.running + 1, s.finished⟩
  | finish (s : DispatchState) (hr : 0 < s.running) :
      DispatchStep c s ⟨s.pending, s.running - 1, s.finished + 1⟩

/-- Initial dispatch state: `run_load_test` spawns `num_requests` tasks, none
yet holding a permit, none finished. -/
def initState (n : ℕ) : DispatchState := ⟨n, 0, 0⟩

/-- A dispatch state reachable from the start of the run by scheduler
steps. -/
def Reachable (c n : ℕ) (s : DispatchState) : Prop :=
  Relation.ReflTransGen (DispatchStep c) (initState n) s

/-! ## Helper lemmas -/

theorem ceil_q (q : ℚ) : ⌈q⌉ = -⌊-q⌋ := by rw [Int.floor_neg, neg_neg]

theorem hasSubstr_iff (n : List Char) :
    ∀ h : List Char, hasSubstr n h = true ↔ n <:+: h := by
  intro h
  induction h with
  | nil =>
      simp only [hasSubstr, List.isEmpty_iff, List.infix_nil]
  | cons c t ih =>
      simp only [hasSubstr, Bool.or_eq_true, ih, List.isPrefixOf_iff_prefix]
      rw [List.infix_cons_iff]

theorem upChar_ne (c : Char) : upChar c ≠ 'n' := by
  intro h
  unfold upChar at h
  by_cases h1 : c = 'a'
  · rw [if_pos h1] at h; exact absurd h (by decide)
  rw [if_neg h1] at h
  by_cases h2 : c = 'b'
  · rw [if_pos h2] at h; exact absurd h (by decide)
  rw [if_neg h2] at h
  by_cases h3 : c = 'c'
  · rw [if_pos h3] at h; exact absurd h (by decide)
  rw [if_neg h3] at h
  by_cases h4 : c = 'd'
  · rw [if_pos h4] at h; exact absurd h (by decide)
  rw [if_neg h4] at h
  by_cases h5 : c = 'e'
  · rw [if_pos h5] at h; exact absurd h (by decide)
  rw [if_neg h5] at h
  by_cases h6 : c = 'f'
  · rw [if_pos h6] at h; exact absurd h (by decide)
  rw [if_neg h6] at h
  by_cases h7 : c = 'g'
  · rw [if_pos h7] at h; exact absurd h (by decide)
  rw [if_neg h7] at h
  by_cases h8 : c = 'h'
  · rw [if_pos h8] at h; exact absurd h (by decide)
  rw [if_neg h8] at h
  by_cases h9 : c = 'i'
  · rw [if_pos h9] at h; exact absurd h (by decide)
  rw [if_neg h9] at h
  by_cases h10 : c = 'j'
  · rw [if_pos h10] at h; exact absurd h (by decide)
  rw [if_neg h10] at h
  by_cases h11 : c = 'k'
  · rw [if_pos h11] at h; exact absurd h (by decide)
  rw [if_neg h11] at h
  by_cases h12 : c = 'l'
  · rw [if_pos h12] at h; exact absurd h (by decide)
  rw [if_neg h12] at h
  by_cases h13 : c = 'm'
  · rw [if_pos h13] at h; exact absurd h (by decide)
  rw [if_neg h13] at h
  by_cases h14 : c = 'n'
  · rw [if_pos h14] at h; exact absurd h (by decide)
  rw [if_neg h14] at h
  by_cases h15 : c = 'o'
  · rw [if_pos h15] at h; exact absurd h (by decide)
  rw [if_neg h15] at h
  by_cases h16 : c = 'p'
  · rw [if_pos h16] at h; exact absurd h (by decide)
  rw [if_neg h16] at h
  by_cases h17 : c = 'q'
  · rw [if_pos h17] at h; exact absurd h (by decide)
  rw [if_neg h17] at h
  by_cases h18 : c = 'r'
  · rw [if_pos h18] at h; exact absurd h (by decide)
  rw [if_neg h18] at h
  by_cases h19 : c = 's'
  · rw [if_pos h19] at h; exact absurd h (by decide)
  rw [if_neg h19] at h
  by_cases h20 : c = 't'
  · rw [if_pos h20] at h; exact absurd h (by decide)
  rw [if_neg h20] at h
  by_cases h21 : c = 'u'
  · rw [if_pos h21] at h; exact absurd h (by decide)
  rw [if_neg h21] at h
  by_cases h22 : c = 'v'
  · rw [if_pos h22] at h; exact absurd h (by decide)
  rw [if_neg h22] at h
  by_cases h23 : c = 'w'
  · rw [if_pos h23] at h; exact absurd h (by decide)
  rw [if_neg h23] at h
  by_cases h24 : c = 'x'
  · rw [if_pos h24] at h; exact absurd h (by decide)
  rw [if_neg h24] at h
  by_cases h25 : c = 'y'
  · rw [if_pos h25] at h; exact absurd h (by decide)
  rw [if_neg h25] at h
  by_cases h26 : c = 'z'
  · rw [if_pos h26] at h; exact absurd h (by decide)
  rw [if_neg h26] at h
  exact h14 h

theorem hasSubstr_lower_nil_false (r : List Char) :
    hasSubstr "(nil)".data (upList r) = false := by
  by_contra hcontra
  have htrue : hasSubstr "(nil)".data (upList r) = true := by
    simpa using hcontra
  have hinf : "(nil)".data <:+: upList r := (hasSubstr_iff _ _).mp htrue
  have hn : 'n' ∈ upList r := hinf.subset (by decide)
  obtain ⟨c, -, hc⟩ := List.mem_map.mp hn
  exact upChar_ne c hc

theorem hasSubstr_upper_nil_sub (r : List Char)
    (h3 : hasSubstr "(NIL)".data (upList r) = true) :
    hasSubstr "NIL".data (upList r) = true := by
  have hinf : "(NIL)".data <:+: upList r := (hasSubstr_iff _ _).mp h3
  have hsub : "NIL".data <:+: "(NIL)".data := ⟨"(".data, ")".data, by decide⟩
  exact (hasSubstr_iff _ _).mpr (hsub.trans hinf)

/-- The error-marker test of the C2 claim, as worded in the spec: the
response begins with a literal error marker or a case-insensitive ERR
prefix. -/
def errPrefixSpec (r : List Char) : Bool :=
  "-ERR".data.isPrefixOf r || "-".data.isPrefixOf r ||
  "ERROR".data.isPrefixOf r || "ERR".data.isPrefixOf (upList r)

/-- The NOT_FOUND test of the C2 claim, as worded in the spec: the response
text case-insensitively contains NIL, NOT FOUND, or (nil). -/
def notFoundSpec (r : List Char) : Bool :=
  hasSubstr (upList "NIL".data) (upList r) ||
  hasSubstr (upList "NOT FOUND".data) (upList r) ||
  hasSubstr (upList "(nil)".data) (upList r)

theorem errPrefixSpec_eq (r : List Char) : errPrefixSpec r = is_error_response r := by
  unfold errPrefixSpec is_error_response
  cases h1 : "-ERR".data.isPrefixOf r <;> cases h2 : "-".data.isPrefixOf r <;>
    cases h3 : "ERROR".data.isPrefixOf r <;>
    cases h4 : "ERR".data.isPrefixOf (upList r) <;> simp

theorem notFoundSpec_eq (r : List Char) :
    notFoundSpec r =
      (hasSubstr "NIL".data (upList r) || hasSubstr "NOT FOUND".data (upList r) ||
        hasSubstr "(nil)".data (upList r)) := by
  unfold notFoundSpec
  rw [show upList "NIL".data = "NIL".data from by decide,
    show upList "NOT FOUND".data = "NOT FOUND".data from by decide,
    show upList "(nil)".data = "(NIL)".data from by decide,
    hasSubstr_lower_nil_false r]
  cases hA : hasSubstr "NIL".data (upList r) <;>
    cases hB : hasSubstr "NOT FOUND".data (upList r) <;> simp
  cases h3 : hasSubstr "(NIL)".data (upList r)
  · rfl
  · rw [hasSubstr_upper_nil_sub r h3] at hA
    exact absurd hA (by simp)

theorem sorted_headD_le {l : List ℕ} (hs : List.Sorted (· ≤ ·) l) :
    ∀ x ∈ l, l.headD 0 ≤ x := by
  cases l with
  | nil => simp
  | cons a t =>
      intro x hx
      rw [List.sorted_cons] at hs
      rcases List.mem_cons.mp hx with h | h
      · subst h; simp
      · simpa using hs.1 x h

theorem headD_mem {l : List ℕ} (h : l ≠ []) : l.headD 0 ∈ l := by
  cases l with
  | nil => exact absurd rfl h
  | cons a t => simp

theorem getLastD_mem {l : List ℕ} (h : l ≠ []) : l.getLastD 0 ∈ l := by
  induction l with
  | nil => exact absurd rfl h
  | cons a t ih =>
      cases t with
      | nil => simp
      | cons b u =>
          have hmem := ih (by simp)
          simp only [show (a :: b :: u).getLastD 0 = (b :: u).getLastD 0 from by simp]
          exact List.mem_cons_of_mem a hmem

theorem sorted_le_getLastD {l : List ℕ} (hs : List.Sorted (· ≤ ·) l) :
    ∀ x ∈ l, x ≤ l.getLastD 0 := by
  induction l with
  | nil => simp
  | cons a t ih =>
      intro x hx
      rw [List.sorted_cons] at hs
      cases t with
      | nil =>
          simp only [List.mem_singleton] at hx
          subst hx; simp
      | cons b u =>
          simp only [show (a :: b :: u).getLastD 0 = (b :: u).getLastD 0 from by simp]
          rcases List.mem_cons.mp hx with h | h
          · subst h
            exact hs.1 _ (getLastD_mem (by simp))
          · exact ih hs.2 x h

theorem calculate_stats_total (rs : List RequestResult) (d : ℕ) :
    (calculate_stats rs d).total_requests = rs.length := rfl

theorem calculate_stats_successful (rs : List RequestResult) (d : ℕ) :
    (calculate_stats rs d).successful_requests =
      (rs.filter (fun r => r.success)).length := rfl

theorem calculate_stats_failed (rs : List RequestResult) (d : ℕ) :
    (calculate_stats rs d).failed_requests =
      rs.length - (rs.filter (fun r => r.success)).length := rfl

theorem calculate_stats_min (rs : List RequestResult) (d : ℕ) :
    (calculate_stats rs d).min_latency =
      (List.insertionSort (· ≤ ·)
        ((rs.filter (fun r => r.success)).map (fun r => r.duration))).headD 0 := by
  unfold calculate_stats
  cases h : (List.insertionSort (· ≤ ·)
      ((rs.filter (fun r => r.success)).map (fun r => r.duration))).isEmpty
  · simp [h]
  · have hnil : List.insertionSort (· ≤ ·)
        ((rs.filter (fun r => r.success)).map (fun r => r.duration)) = [] := by
      simpa using h
    simp [h, hnil]

theorem calculate_stats_max (rs : List RequestResult) (d : ℕ) :
    (calculate_stats rs d).max_latency =
      (List.insertionSort (· ≤ ·)
        ((rs.filter (fun r => r.success)).map (fun r => r.duration))).getLastD 0 := by
  unfold calculate_stats
  cases h : (List.insertionSort (· ≤ ·)
      ((rs.filter (fun r => r.success)).map (fun r => r.duration))).isEmpty
  · simp [h]
  · have hnil : List.insertionSort (· ≤ ·)
        ((rs.filter (fun r => r.success)).map (fun r => r.duration)) = [] := by
      simpa using h
    simp [h, hnil]

theorem calculate_stats_avg (rs : List RequestResult) (d : ℕ) :
    (calculate_stats rs d).avg_latency =
      (((List.insertionSort (· ≤ ·)
          ((rs.filter (fun r => r.success)).map (fun r => r.duration)) :
            List ℕ).sum : ℕ) : ℚ) /
        ((List.insertionSort (· ≤ ·)
          ((rs.filter (fun r => r.success)).map (fun r => r.duration))).length : ℚ) := by
  unfold calculate_stats
  cases h : (List.insertionSort (· ≤ ·)
      ((rs.filter (fun r => r.success)).map (fun r => r.duration))).isEmpty
  · simp only [h, Bool.false_eq_true, if_false]
  · have hnil : List.insertionSort (· ≤ ·)
        ((rs.filter (fun r => r.success)).map (fun r => r.duration)) = [] := by
      simpa using h
    simp [h, hnil]

theorem calculate_stats_p50 (rs : List RequestResult) (d : ℕ) :
    (calculate_stats rs d).p50 =
      percentile (List.insertionSort (· ≤ ·)
        ((rs.filter (fun r => r.success)).map (fun r => r.duration)))
        (intToF64 50) := by
  unfold calculate_stats
  cases h : (List.insertionSort (· ≤ ·)
      ((rs.filter (fun r => r.success)).map (fun r => r.duration))).isEmpty
  · simp [h]
  · have hnil : List.insertionSort (· ≤ ·)
        ((rs.filter (fun r => r.success)).map (fun r => r.duration)) = [] := by
      simpa using h
    simp [h, hnil, percentile]

theorem calculate_stats_p95 (rs : List RequestResult) (d : ℕ) :
    (calculate_stats rs d).p95 =
      percentile (List.insertionSort (· ≤ ·)
        ((rs.filter (fun r => r.success)).map (fun r => r.duration)))
        (intToF64 95) := by
  unfold calculate_stats
  cases h : (List.insertionSort (· ≤ ·)
      ((rs.filter (fun r => r.success)).map (fun r => r.duration))).isEmpty
  · simp [h]
  · have hnil : List.insertionSort (· ≤ ·)
        ((rs.filter (fun r => r.success)).map (fun r => r.duration)) = [] := by
      simpa using h
    simp [h, hnil, percentile]

theorem calculate_stats_p99 (rs : List RequestResult) (d : ℕ) :
    (calculate_stats rs d).p99 =
      percentile (List.insertionSort (· ≤ ·)
        ((rs.filter (fun r => r.success)).map (fun r => r.duration)))
        (intToF64 99) := by
  unfold calculate_stats
  cases h : (List.insertionSort (· ≤ ·)
      ((rs.filter (fun r => r.success)).map (fun r => r.duration))).isEmpty
  · simp [h]
  · have hnil : List.insertionSort (· ≤ ·)
        ((rs.filter (fun r => r.success)).map (fun r => r.duration)) = [] := by
      simpa using h
    simp [h, hnil, percentile]

theorem calculate_stats_rps (rs : List RequestResult) (d : ℕ) :
    (calculate_stats rs d).requests_per_second =
      if 0 < d then ((rs.length : ℚ) / (d : ℚ)) * 1000 else 0 := rfl

/-- The mixed outcome sequence of the spec's test properties:
[(100, success), (50, fail), (200, fail, no error), (150, success)]. -/
def mixedOutcomes : List RequestResult :=
  [{ duration := 100, status := 200, success := true, error := none },
   { duration := 50, status := 0, success := false, error := some "fail".data },
   { duration := 200, status := 0, success := false, error := none },
   { duration := 150, status := 200, success := true, error := none }]

/-- A 42-element sorted latency dataset: 62..100 (index 38 holds 100), then
120, 130, 140. At p95 the interpolation straddles indices 38 and 39, where
f64 rounding drops the truncated result below the exact rule. -/
def dataset42 : List ℕ :=
  [62, 63, 64, 65, 66, 67, 68, 69, 70, 71, 72, 73, 74, 75, 76, 77, 78, 79,
   80, 81, 82, 83, 84, 85, 86, 87, 88, 89, 90, 91, 92, 93, 94, 95, 96, 97,
   98, 99, 100, 120, 130, 140]

/-! ## The claims -/

/-- C1 counterexample: the exact linear-interpolation rule of the claim
fails on the program. On `dataset42` at p95 the exact rule gives
⌊100 + 0.95·(120−100)⌋ = 119, but the code computes in f64: 95.0/100.0
rounds below 19/20, the interpolated sum comes out at 119 − 6·2^(−46), and
the final `as u128` cast truncates it to 118. -/
theorem percentile_exact_rule_counterexample :
    dataset42 ≠ [] ∧ List.Sorted (· ≤ ·) dataset42 ∧
    percentile dataset42 (intToF64 95) = 118 ∧
    (let len := dataset42.length
     let rank : ℚ := ((95 : ℚ) / 100) * ((len : ℚ) - 1)
     let lower : ℕ := (⌊rank⌋).toNat
     let upper : ℕ := (⌈rank⌉).toNat
     (if lower = upper ∨ len ≤ upper then
        dataset42.getD (min lower (len - 1)) 0
      else
        (⌊(dataset42.getD lower 0 : ℚ) +
            (rank - (lower : ℚ)) *
              ((dataset42.getD upper 0 : ℚ) -
                (dataset42.getD lower 0 : ℚ))⌋).toNat) = 119) ∧
    (118 : ℕ) ≠ 119 := by
  refine ⟨by decide, by decide, by decide, ?_, by decide⟩
  simp only [show dataset42.length = 42 from by decide]
  norm_num [ceil_q]
  rw [show Int.toNat 38 = 38 from rfl, show Int.toNat 39 = 39 from rfl]
  norm_num [show dataset42[(38 : ℕ)]?.getD 0 = 100 from by decide,
    show dataset42[(39 : ℕ)]?.getD 0 = 120 from by decide]
  decide

/-- C1 (amended): for every non-empty ascending-sorted list of latencies
and every p in {50, 95, 99}, `percentile` follows the linear-interpolation
rule computed in IEEE-754 double arithmetic: with rank = (p/100)·(len−1),
lower = ⌊rank⌋, upper = ⌈rank⌉ (all f64 operations), the result is
latencies[min(lower, len−1)] when lower = upper or upper ≥ len, and
otherwise the f64 value latencies[lower] + (rank − lower)·(latencies[upper]
− latencies[lower]) truncated toward zero to the integer duration unit.
percentile 50 of [100, 200] is still exactly 150 (that interpolation is
exact in f64), while rounding can push the truncated result one below the
exact rule: p95 of `dataset42` yields 118 where the exact rule gives 119. -/
theorem percentile_f64_rule (l : List ℕ) (p : F64) (hne : l ≠ [])
    (hsorted : List.Sorted (· ≤ ·) l)
    (hp : p = intToF64 50 ∨ p = intToF64 95 ∨ p = intToF64 99) :
    (let len := l.length
     let rank : F64 := mulF64 (divF64 p (intToF64 100)) (intToF64 (len - 1))
     let lower : ℕ := (floorF64 rank).toNat
     let upper : ℕ := (ceilF64 rank).toNat
     percentile l p =
       if lower = upper ∨ len ≤ upper then l.getD (min lower (len - 1)) 0
       else
         truncF64toNat (addF64 (intToF64 (l.getD lower 0))
           (mulF64 (subF64 rank (intToF64 lower))
             (subF64 (intToF64 (l.getD upper 0))
               (intToF64 (l.getD lower 0)))))) ∧
    percentile [100, 200] (intToF64 50) = 150 ∧
    percentile dataset42 (intToF64 95) = 118 := by
  refine ⟨?_, by decide, by decide⟩
  have hE : l.isEmpty = false := by
    cases l
    · exact absurd rfl hne
    · rfl
  unfold percentile
  rw [if_neg (by rw [hE]; exact Bool.false_ne_true)]

/-- Witness for C1 (amended) at the two-element dataset. -/
theorem percentile_f64_rule_witness :
    percentile [100, 200] (intToF64 50) = 150 :=
  (percentile_f64_rule [100, 200] (intToF64 50) (by decide) (by decide)
    (Or.inl rfl)).2.1

/-- C2: a KV-TCP response line beginning with an error marker yields status
ERROR (500), success = false and error = the response text; otherwise a
response case-insensitively containing NIL, NOT FOUND or (nil) yields
status NOT_FOUND (404), success = true, no error; otherwise status OK (200),
success = true, no error. -/
theorem kv_response_classification (d : ℕ) (r : List Char) :
    (errPrefixSpec r = true →
      (fire_result d r).status = status.ERROR ∧
      (fire_result d r).success = false ∧
      (fire_result d r).error = some r) ∧
    (errPrefixSpec r = false → notFoundSpec r = true →
      (fire_result d r).status = status.NOT_FOUND ∧
      (fire_result d r).success = true ∧
      (fire_result d r).error = none) ∧
    (errPrefixSpec r = false → notFoundSpec r = false →
      (fire_result d r).status = status.OK ∧
      (fire_result d r).success = true ∧
      (fire_result d r).error = none) := by
  have he := errPrefixSpec_eq r
  have hn := notFoundSpec_eq r
  refine ⟨fun hET => ?_, fun hEF hNT => ?_, fun hEF hNF => ?_⟩
  · have h1 : is_error_response r = true := he ▸ hET
    simp [fire_result, h1]
  · have h1 : is_error_response r = false := he ▸ hEF
    have h2 : (hasSubstr "NIL".data (upList r) ||
        hasSubstr "NOT FOUND".data (upList r) ||
        hasSubstr "(nil)".data (upList r)) = true := hn ▸ hNT
    simp [fire_result, h1, h2]
  · have h1 : is_error_response r = false := he ▸ hEF
    have h2 : (hasSubstr "NIL".data (upList r) ||
        hasSubstr "NOT FOUND".data (upList r) ||
        hasSubstr "(nil)".data (upList r)) = false := hn ▸ hNF
    simp [fire_result, h1, h2]

/-- Witness for C2: an error-prefixed line, classified at a concrete
response. -/
theorem kv_response_classification_witness :
    (fire_result 7 "-ERR oops".data).status = status.ERROR ∧
    (fire_result 7 "-ERR oops".data).success = false ∧
    (fire_result 7 "-ERR oops".data).error = some "-ERR oops".data :=
  (kv_response_classification 7 "-ERR oops".data).1 (by decide)

/-- C3 counterexample: the claim says a raw command ending in a single
trailing LF has just that LF replaced by CRLF, so "X \n" would serialize to
"X \r\n"; the code instead strips all trailing whitespace first and
produces "X\r\n". -/
theorem raw_lf_upgrade_counterexample :
    to_wire_format (.Raw "X \n".data) = "X\r\n".data ∧
    to_wire_format (.Raw "X \n".data) ≠ "X \r\n".data := by
  constructor
  · decide
  · decide

/-- C3 (amended): serialization uppercases the verb, joins arguments with
single spaces and terminates with CRLF; a raw command already ending in CRLF
is passed through unmodified, a raw command ending in LF (but not CRLF) has
its trailing whitespace — including that LF — removed and CRLF appended, and
otherwise CRLF is appended; in particular SET with key `key` and value
`value` serializes to exactly "SET key value\r\n". -/
theorem to_wire_format_spec (key value pattern cmd : List Char) (seconds : ℕ) :
    (to_wire_format .Ping = "PING\r\n".data ∧
     to_wire_format (.Get key) = "GET ".data ++ key ++ "\r\n".data ∧
     to_wire_format (.Set key value) =
       "SET ".data ++ key ++ " ".data ++ value ++ "\r\n".data ∧
     to_wire_format (.Del key) = "DEL ".data ++ key ++ "\r\n".data ∧
     to_wire_format (.Incr key) = "INCR ".data ++ key ++ "\r\n".data ∧
     to_wire_format (.Decr key) = "DECR ".data ++ key ++ "\r\n".data ∧
     to_wire_format (.LPush key value) =
       "LPUSH ".data ++ key ++ " ".data ++ value ++ "\r\n".data ∧
     to_wire_format (.LPop key) = "LPOP ".data ++ key ++ "\r\n".data ∧
     to_wire_format (.Exists key) = "EXISTS ".data ++ key ++ "\r\n".data ∧
     to_wire_format (.Expire key seconds) =
       "EXPIRE ".data ++ key ++ " ".data ++ (toString seconds).data ++ "\r\n".data ∧
     to_wire_format (.Ttl key) = "TTL ".data ++ key ++ "\r\n".data ∧
     to_wire_format (.Keys pattern) = "KEYS ".data ++ pattern ++ "\r\n".data ∧
     to_wire_format .FlushDb = "FLUSHDB\r\n".data) ∧
    ("\r\n".data.isSuffixOf cmd = true → to_wire_format (.Raw cmd) = cmd) ∧
    ("\r\n".data.isSuffixOf cmd = false → "\n".data.isSuffixOf cmd = true →
      to_wire_format (.Raw cmd) = trimEnd cmd ++ "\r\n".data) ∧
    ("\r\n".data.isSuffixOf cmd = false → "\n".data.isSuffixOf cmd = false →
      to_wire_format (.Raw cmd) = cmd ++ "\r\n".data) ∧
    to_wire_format (.Set "key".data "value".data) = "SET key value\r\n".data := by
  refine ⟨⟨rfl, rfl, rfl, rfl, rfl, rfl, rfl, rfl, rfl, rfl, rfl, rfl, rfl⟩,
    fun h1 => ?_, fun h1 h2 => ?_, fun h1 h2 => ?_, by decide⟩
  · simp [to_wire_format, h1]
  · simp [to_wire_format, h1, h2]
  · simp [to_wire_format, h1, h2]

/-- Witness for C3 (amended) at a raw command with no trailing newline. -/
theorem to_wire_format_spec_witness :
    to_wire_format (.Raw "STATS".data) = "STATS".data ++ "\r\n".data :=
  (to_wire_format_spec [] [] [] "STATS".data 0).2.2.2.1 (by decide) (by decide)

/-- C4: the report satisfies total = |outcomes|, successful = count of
success = true, failed = total − successful (so successful + failed =
total), min/max/mean latency are computed only over the durations of the
successful outcomes, and on the mixed sequence
[(100, success), (50, fail), (200, fail, no error), (150, success)] the
report has successful = 2, failed = 2, min = 100, max = 150, mean = 125. -/
theorem stats_aggregation (rs : List RequestResult) (d : ℕ) :
    ((calculate_stats rs d).total_requests = rs.length ∧
      (calculate_stats rs d).successful_requests =
        (rs.filter (fun r => r.success)).length ∧
      (calculate_stats rs d).failed_requests =
        (calculate_stats rs d).total_requests -
          (calculate_stats rs d).successful_requests ∧
      (calculate_stats rs d).successful_requests +
          (calculate_stats rs d).failed_requests =
        (calculate_stats rs d).total_requests) ∧
    (∀ x ∈ (rs.filter (fun r => r.success)).map (fun r => r.duration),
      (calculate_stats rs d).min_latency ≤ x ∧
      x ≤ (calculate_stats rs d).max_latency) ∧
    ((rs.filter (fun r => r.success)).map (fun r => r.duration) ≠ [] →
      (calculate_stats rs d).min_latency ∈
        (rs.filter (fun r => r.success)).map (fun r => r.duration) ∧
      (calculate_stats rs d).max_latency ∈
        (rs.filter (fun r => r.success)).map (fun r => r.duration)) ∧
    (calculate_stats rs d).avg_latency =
      ((((rs.filter (fun r => r.success)).map (fun r => r.duration) :
          List ℕ).sum : ℕ) : ℚ) /
        (((rs.filter (fun r => r.success)).map (fun r => r.duration)).length : ℚ) ∧
    ((calculate_stats mixedOutcomes 2000).successful_requests = 2 ∧
      (calculate_stats mixedOutcomes 2000).failed_requests = 2 ∧
      (calculate_stats mixedOutcomes 2000).min_latency = 100 ∧
      (calculate_stats mixedOutcomes 2000).max_latency = 150 ∧
      (calculate_stats mixedOutcomes 2000).avg_latency = 125) := by
  have hperm := List.perm_insertionSort (· ≤ ·)
    ((rs.filter (fun r => r.success)).map (fun r => r.duration))
  have hsort := List.sorted_insertionSort (· ≤ ·)
    ((rs.filter (fun r => r.success)).map (fun r => r.duration))
  refine ⟨⟨rfl, rfl, rfl, ?_⟩, fun x hx => ?_, fun hne => ?_, ?_, ?_⟩
  · rw [calculate_stats_total, calculate_stats_successful, calculate_stats_failed]
    have hle := List.length_filter_le (fun r => r.success) rs
    omega
  · have hx' : x ∈ List.insertionSort (· ≤ ·)
        ((rs.filter (fun r => r.success)).map (fun r => r.duration)) :=
      hperm.mem_iff.mpr hx
    exact ⟨by rw [calculate_stats_min]; exact sorted_headD_le hsort x hx',
      by rw [calculate_stats_max]; exact sorted_le_getLastD hsort x hx'⟩
  · have hne' : List.insertionSort (· ≤ ·)
        ((rs.filter (fun r => r.success)).map (fun r => r.duration)) ≠ [] := by
      intro h0
      exact hne (List.perm_nil.mp (h0 ▸ hperm).symm)
    exact ⟨by rw [calculate_stats_min]; exact hperm.mem_iff.mp (headD_mem hne'),
      by rw [calculate_stats_max]; exact hperm.mem_iff.mp (getLastD_mem hne')⟩
  · rw [calculate_stats_avg, hperm.sum_eq, hperm.length_eq]
  · refine ⟨by decide, by decide, by decide, by decide, ?_⟩
    rw [calculate_stats_avg, show List.insertionSort (· ≤ ·)
      ((mixedOutcomes.filter (fun r => r.success)).map (fun r => r.duration)) =
        [100, 150] from by decide]
    norm_num

/-- Witness for C4 at the mixed outcome sequence (its success-latency list
is non-empty). -/
theorem stats_aggregation_witness :
    (calculate_stats mixedOutcomes 2000).min_latency ∈
      (mixedOutcomes.filter (fun r => r.success)).map (fun r => r.duration) ∧
    (calculate_stats mixedOutcomes 2000).max_latency ∈
      (mixedOutcomes.filter (fun r => r.success)).map (fun r => r.duration) :=
  (stats_aggregation mixedOutcomes 2000).2.2.1 (by decide)

/-- C5: when no outcome succeeded (including the empty sequence), every
latency field of the report is zero, with no division by zero or undefined
value. -/
theorem no_success_zero_latency (rs : List RequestResult) (d : ℕ)
    (h : ∀ r ∈ rs, r.success = false) :
    (calculate_stats rs d).min_latency = 0 ∧
    (calculate_stats rs d).max_latency = 0 ∧
    (calculate_stats rs d).avg_latency = 0 ∧
    (calculate_stats rs d).p50 = 0 ∧
    (calculate_stats rs d).p95 = 0 ∧
    (calculate_stats rs d).p99 = 0 := by
  have hfilter : rs.filter (fun r => r.success) = [] := by
    rw [List.filter_eq_nil_iff]
    intro a ha
    simp [h a ha]
  have hsort : List.insertionSort (· ≤ ·)
      ((rs.filter (fun r => r.success)).map (fun r => r.duration)) = [] := by
    rw [hfilter]
    rfl
  refine ⟨?_, ?_, ?_, ?_, ?_, ?_⟩
  · rw [calculate_stats_min, hsort]; rfl
  · rw [calculate_stats_max, hsort]; rfl
  · rw [calculate_stats_avg, hsort]; simp
  · rw [calculate_stats_p50, hsort]; rfl
  · rw [calculate_stats_p95, hsort]; rfl
  · rw [calculate_stats_p99, hsort]; rfl

/-- Witness for C5 at the empty outcome sequence. -/
theorem no_success_zero_latency_witness :
    (calculate_stats [] 1000).min_latency = 0 ∧
    (calculate_stats [] 1000).max_latency = 0 ∧
    (calculate_stats [] 1000).avg_latency = 0 ∧
    (calculate_stats [] 1000).p50 = 0 ∧
    (calculate_stats [] 1000).p95 = 0 ∧
    (calculate_stats [] 1000).p99 = 0 :=
  no_success_zero_latency [] 1000 (by simp)

/-- C6: requests_per_second = (total / total_duration) · 1000 when
total_duration > 0 and 0 when total_duration = 0; the 4-outcome sequence
with total_duration = 2000 ms gives 2.0 and with 1000 ms gives 4.0. -/
theorem throughput_law (rs : List RequestResult) (d : ℕ) :
    ((calculate_stats rs d).requests_per_second =
      if 0 < d then ((rs.length : ℚ) / (d : ℚ)) * 1000 else 0) ∧
    (calculate_stats rs 0).requests_per_second = 0 ∧
    mixedOutcomes.length = 4 ∧
    (calculate_stats mixedOutcomes 2000).requests_per_second = 2 ∧
    (calculate_stats mixedOutcomes 1000).requests_per_second = 4 := by
  refine ⟨rfl, rfl, rfl, ?_, ?_⟩
  · rw [calculate_stats_rps]
    norm_num [mixedOutcomes]
  · rw [calculate_stats_rps]
    norm_num [mixedOutcomes]

/-- C7: for a drawn integer k with 0 ≤ k < range, random-key substitution
replaces the key of every keyed command with `<prefix>:<k>`, leaving the
other fields (value, seconds) unchanged, and returns every keyless command
(PING, FLUSHDB, KEYS, raw) unchanged. -/
theorem random_key_substitution (pfx : List Char) (range k : ℕ)
    (hk : k < range) :
    (∀ key, with_random_key (.Get key) pfx range k =
      some (.Get (pfx ++ ":".data ++ (toString k).data))) ∧
    (∀ key value, with_random_key (.Set key value) pfx range k =
      some (.Set (pfx ++ ":".data ++ (toString k).data) value)) ∧
    (∀ key, with_random_key (.Del key) pfx range k =
      some (.Del (pfx ++ ":".data ++ (toString k).data))) ∧
    (∀ key, with_random_key (.Incr key) pfx range k =
      some (.Incr (pfx ++ ":".data ++ (toString k).data))) ∧
    (∀ key, with_random_key (.Decr key) pfx range k =
      some (.Decr (pfx ++ ":".data ++ (toString k).data))) ∧
    (∀ key value, with_random_key (.LPush key value) pfx range k =
      some (.LPush (pfx ++ ":".data ++ (toString k).data) value)) ∧
    (∀ key, with_random_key (.LPop key) pfx range k =
      some (.LPop (pfx ++ ":".data ++ (toString k).data))) ∧
    (∀ key, with_random_key (.Exists key) pfx range k =
      some (.Exists (pfx ++ ":".data ++ (toString k).data))) ∧
    (∀ key seconds, with_random_key (.Expire key seconds) pfx range k =
      some (.Expire (pfx ++ ":".data ++ (toString k).data) seconds)) ∧
    (∀ key, with_random_key (.Ttl key) pfx range k =
      some (.Ttl (pfx ++ ":".data ++ (toString k).data))) ∧
    with_random_key .Ping pfx range k = some .Ping ∧
    with_random_key .FlushDb pfx range k = some .FlushDb ∧
    (∀ pattern, with_random_key (.Keys pattern) pfx range k =
      some (.Keys pattern)) ∧
    (∀ cmd, with_random_key (.Raw cmd) pfx range k = some (.Raw cmd)) := by
  refine ⟨fun key => ?_, fun key value => ?_, fun key => ?_, fun key => ?_,
    fun key => ?_, fun key value => ?_, fun key => ?_, fun key => ?_,
    fun key seconds => ?_, fun key => ?_, ?_, ?_, fun pattern => ?_,
    fun cmd => ?_⟩ <;> simp [with_random_key, hk]

/-- Witness for C7: a GET command is rewritten to its prefixed random key;
draw 3 from range 10. -/
theorem random_key_substitution_witness :
    with_random_key (.Get "orig".data) "user".data 10 3 =
      some (.Get ("user".data ++ ":".data ++ (toString 3).data)) :=
  (random_key_substitution "user".data 10 3 (by decide)).1 "orig".data

/-- C8: the KV-TCP driver executes the command at position i mod L of the
configured command list; the selection is periodic in the list length, and a
two-command configuration with 1000 requests runs each command exactly 500
times, alternating. -/
theorem command_cycling (cmds : List FlashKVCommand) (i : ℕ)
    (hne : cmds ≠ []) :
    selectCommand cmds i = cmds[i % cmds.length]? ∧
    selectCommand cmds (i + cmds.length) = selectCommand cmds i ∧
    (dispatchedCommands [.Ping, .FlushDb] 1000).count
      (some FlashKVCommand.Ping) = 500 ∧
    (dispatchedCommands [.Ping, .FlushDb] 1000).count
      (some FlashKVCommand.FlushDb) = 500 := by
  have hpos : 0 < cmds.length := List.length_pos.mpr hne
  refine ⟨?_, ?_, by decide, by decide⟩
  · rw [selectCommand, dif_pos hpos, List.get_eq_getElem,
      List.getElem?_eq_getElem (Nat.mod_lt i hpos)]
  · rw [selectCommand, selectCommand, dif_pos hpos, dif_pos hpos]
    simp [Nat.add_mod_right]

/-- Witness for C8 at the singleton command list. -/
theorem command_cycling_witness :
    selectCommand [FlashKVCommand.Ping] 0 =
      [FlashKVCommand.Ping][0 % ([FlashKVCommand.Ping] : List _).length]? :=
  (command_cycling [FlashKVCommand.Ping] 0 (by decide)).1

/-- C10: with range = 0 the random draw is over the empty interval [0, 0),
so random-key substitution panics (modelled by `none`) for every keyed
command, every prefix and every candidate draw value. -/
theorem random_key_range_zero (pfx : List Char) (k : ℕ) :
    (∀ key, with_random_key (.Get key) pfx 0 k = none) ∧
    (∀ key value, with_random_key (.Set key value) pfx 0 k = none) ∧
    (∀ key, with_random_key (.Del key) pfx 0 k = none) ∧
    (∀ key, with_random_key (.Incr key) pfx 0 k = none) ∧
    (∀ key, with_random_key (.Decr key) pfx 0 k = none) ∧
    (∀ key value, with_random_key (.LPush key value) pfx 0 k = none) ∧
    (∀ key, with_random_key (.LPop key) pfx 0 k = none) ∧
    (∀ key, with_random_key (.Exists key) pfx 0 k = none) ∧
    (∀ key seconds, with_random_key (.Expire key seconds) pfx 0 k = none) ∧
    (∀ key, with_random_key (.Ttl key) pfx 0 k = none) := by
  refine ⟨fun key => ?_, fun key value => ?_, fun key => ?_, fun key => ?_,
    fun key => ?_, fun key value => ?_, fun key => ?_, fun key => ?_,
    fun key seconds => ?_, fun key => ?_⟩ <;> simp [with_random_key]

/-- C9: every state of the semaphore-gated dispatch loop reachable from the
start of a run with request count n and concurrency c keeps at most c
driver invocations holding a permit and loses no task (pending + running +
finished = n); when no further step is possible the run has completed all n
invocations, so exactly n results are collected before returning. -/
theorem dispatch_bounded_concurrency (c n : ℕ) (hc : 1 ≤ c) (hn : 1 ≤ n)
    (s : DispatchState) (hs : Reachable c n s) :
    (s.running ≤ c ∧ s.pending + s.running + s.finished = n) ∧
    ((∀ t, ¬ DispatchStep c s t) → s.finished = n) := by
  have key : s.running ≤ c ∧ s.pending + s.running + s.finished = n := by
    induction hs with
    | refl => simp [initState]
    | tail _ step ih =>
        obtain ⟨ih1, ih2⟩ := ih
        cases step with
        | acquire hp hr =>
            refine ⟨?_, ?_⟩ <;> dsimp only <;> omega
        | finish hr =>
            refine ⟨?_, ?_⟩ <;> dsimp only <;> omega
  refine ⟨key, fun hterm => ?_⟩
  by_cases hr : 0 < s.running
  · exact absurd (DispatchStep.finish s hr) (hterm _)
  · by_cases hp : 0 < s.pending
    · exact absurd (DispatchStep.acquire s hp (by omega)) (hterm _)
    · have := key.2
      omega

/-- Witness for C9: the complete two-step run with n = 1, c = 1 ends in the
terminal state (0, 0, 1), which the theorem certifies. -/
theorem dispatch_bounded_concurrency_witness :
    (DispatchState.mk 0 0 1).running ≤ 1 ∧
    (DispatchState.mk 0 0 1).pending + (DispatchState.mk 0 0 1).running +
      (DispatchState.mk 0 0 1).finished = 1 := by
  have reach : Reachable 1 1 ⟨0, 0, 1⟩ :=
    Relation.ReflTransGen.tail
      (Relation.ReflTransGen.tail Relation.ReflTransGen.refl
        (DispatchStep.acquire ⟨1, 0, 0⟩ (by decide) (by decide)))
      (DispatchStep.finish ⟨0, 1, 0⟩ (by decide))
  exact (dispatch_bounded_concurrency 1 1 (le_refl 1) (le_refl 1)
    ⟨0, 0, 1⟩ reach).1

end RustyLoad
